import Mathlib

/-!
Verification of the crypto prediction accuracy tracker (`src/main.py`).

The development shallowly embeds the program: calendar dates are a
year/month/day structure, JSON values are an inductive type, Python
exceptions are an explicit error type, HTTP traffic is a parameter
describing the outcome of each request, prices are rational numbers, and
the SQLite tables are lists of rows.  External libraries (`dateutil`,
`float`, `requests`, BeautifulSoup) are modelled by documented Lean
functions covering the value shapes the program feeds them.
-/

/-- A calendar date, as produced by the date parsing in `main.py`. -/
structure SDate where
  year : Nat
  month : Nat
  day : Nat
deriving DecidableEq, Repr

/-- Left-pad a numeral to two digits, as `date.isoformat` does. -/
def pad2 (n : Nat) : String := if n < 10 then "0" ++ toString n else toString n

/-- Left-pad a numeral to four digits, as `date.isoformat` does. -/
def pad4 (n : Nat) : String :=
  if n < 10 then "000" ++ toString n
  else if n < 100 then "00" ++ toString n
  else if n < 1000 then "0" ++ toString n
  else toString n

/-- Model of Python `date.isoformat()`: the `YYYY-MM-DD` rendering. -/
def SDate.isoformat (d : SDate) : String :=
  pad4 d.year ++ "-" ++ pad2 d.month ++ "-" ++ pad2 d.day

/-- Chronological comparison of dates.  In the SQL query the comparison is
`DATE(p.target_date) <= DATE(?)` on ISO-formatted text, which for
well-formed dates coincides with this year/month/day lexicographic test. -/
def dateLe (a b : SDate) : Bool :=
  Nat.blt a.year b.year ||
    (a.year == b.year &&
      (Nat.blt a.month b.month || (a.month == b.month && Nat.ble a.day b.day)))

/-- Days in a month, with the Gregorian leap rule (as Python `datetime`). -/
def daysInMonth (y m : Nat) : Nat :=
  if m == 2 then (if y % 4 == 0 && (y % 100 != 0 || y % 400 == 0) then 29 else 28)
  else if m == 4 || m == 6 || m == 9 || m == 11 then 30
  else 31

/-- Validity of a year/month/day triple (as Python `datetime.date`). -/
def validYMD (y m d : Nat) : Bool :=
  1 ≤ m && m ≤ 12 && 1 ≤ d && d ≤ daysInMonth y m

/-- Numeric value of a digit string; `none` if empty or not all digits. -/
def natOfDigits (cs : List Char) : Option Nat :=
  if cs.isEmpty || !cs.all (fun c => c.isDigit) then none
  else some (cs.foldl (fun n c => n * 10 + (c.toNat - 48)) 0)

/-- Model of `datetime.fromisoformat` restricted to the `YYYY-MM-DD` date
strings this program feeds it (`target_date` values it stored itself);
`none` models the `ValueError` raised on anything else. -/
def parseIsoDate (s : String) : Option SDate :=
  match s.toList with
  | [y1, y2, y3, y4, '-', m1, m2, '-', d1, d2] =>
    match natOfDigits [y1, y2, y3, y4], natOfDigits [m1, m2], natOfDigits [d1, d2] with
    | some y, some m, some d => if validYMD y m d then some ⟨y, m, d⟩ else none
    | _, _, _ => none
  | _ => none

/-- Is a character one of the date separators `-` `/` used by the program. -/
def isSepCh (c : Char) : Bool := c == '-' || c == '/'

/-- Split a character list on the separators `-` and `/`. -/
def splitOnSeps : List Char → List (List Char)
  | [] => [[]]
  | c :: rest =>
    let r := splitOnSeps rest
    if isSepCh c then [] :: r
    else
      match r with
      | f :: fs => (c :: f) :: fs
      | [] => [[c]]

/-- Expansion of two-digit years, following the dateutil convention of
mapping them into 1950–2049. -/
def expandYear (cs : List Char) (n : Nat) : Nat :=
  if cs.length == 2 then (if n < 50 then 2000 + n else 1900 + n) else n

/-- Model of the external `dateutil.parser.parse(s, dayfirst=…).date()` on
the date-string shapes this program feeds it: three numeric fields
separated by `-` or `/`.  Reflects dateutil behaviour: a four-digit first
field is a year (ISO order); otherwise the first two fields are
month/day ordered by the `dayfirst` flag, with the interpretation swapped
when the preferred assignment yields an impossible month (dateutil treats
`dayfirst` as a hint only).  `none` models the parse raising. -/
def pyDateutilParse (dayfirst : Bool) (s : String) : Option SDate :=
  match splitOnSeps s.toList with
  | [f1, f2, f3] =>
    match natOfDigits f1, natOfDigits f2, natOfDigits f3 with
    | some a, some b, some c =>
      if f1.length == 4 then
        if validYMD a b c then some ⟨a, b, c⟩ else none
      else
        let y := expandYear f3 c
        let md := if dayfirst then (if b ≤ 12 then (b, a) else (a, b))
                  else (if a ≤ 12 then (a, b) else (b, a))
        if validYMD y md.1 md.2 then some ⟨y, md.1, md.2⟩ else none
    | _, _, _ => none
  | _ => none

/-- Modelled from the spec: a date parser in which the `dayfirst` flag
strictly selects day-first versus month-first reading of a
`a/b/year` string, with no fallback swapping — the two-attempt policy of
§4.1 is described over such a parser.  Used to exhibit how the code's
retry differs from the specified day-first retry. -/
def strictFieldParse (dayfirst : Bool) (s : String) : Option SDate :=
  match splitOnSeps s.toList with
  | [f1, f2, f3] =>
    match natOfDigits f1, natOfDigits f2, natOfDigits f3 with
    | some a, some b, some c =>
      let y := expandYear f3 c
      let m := if dayfirst then b else a
      let d := if dayfirst then a else b
      if f1.length != 4 && validYMD y m d then some ⟨y, m, d⟩ else none
    | _, _, _ => none
  | _ => none

/-- The two-attempt date parse of `main.py` lines 89–93, over an arbitrary
underlying parser `P` taking a `dayfirst` flag.  The first attempt is
`parser.parse(dt)` (the month-first default, `dayfirst=False`); the
`except` branch retries with `parser.parse(dt, dayfirst=False)` — again
the month-first default.  `none` means both attempts raised. -/
def parse_date_with_retry (P : Bool → String → Option SDate) (s : String) : Option SDate :=
  match P false s with
  | some d => some d
  | none => P false s

/-- A Python exception of a given kind, used to model raising. -/
inductive PyExn where
  | exn (kind : String)
deriving DecidableEq, Repr

/-- A JSON value as decoded by `response.json()` into Python objects. -/
inductive JVal where
  | jnull
  | jbool (b : Bool)
  | jnum (q : ℚ)
  | jstr (s : String)
  | jarr (l : List JVal)
  | jobj (l : List (String × JVal))

/-- Python truthiness of a decoded JSON value (`None`, `False`, `0`, `""`,
`[]` and `{}` are falsy). -/
def truthy : JVal → Bool
  | .jnull => false
  | .jbool b => b
  | .jnum q => if q = 0 then false else true
  | .jstr s => !(s == "")
  | .jarr l => !l.isEmpty
  | .jobj l => !l.isEmpty

/-- Model of `dict.get` on a decoded JSON object: the value bound to the
first occurrence of the key, if any. -/
def objLookup (l : List (String × JVal)) (k : String) : Option JVal :=
  List.lookup k l

/-- Does `needle` occur as a prefix of `hay`. -/
def listHasPrefix : List Char → List Char → Bool
  | [], _ => true
  | _ :: _, [] => false
  | a :: xs, b :: ys => a == b && listHasPrefix xs ys

/-- Does `needle` occur as a contiguous sublist of `hay`. -/
def listHasSub (needle : List Char) : List Char → Bool
  | [] => needle.isEmpty
  | c :: rest => listHasPrefix needle (c :: rest) || listHasSub needle rest

/-- Model of the Python membership test `key in v` on a decoded JSON
value: key lookup on a dict, element equality on a list, substring test
on a string; on any other value `in` raises `TypeError`. -/
def pyContains (key : String) (v : JVal) : Except PyExn Bool :=
  match v with
  | .jobj l => .ok (objLookup l key).isSome
  | .jarr l => .ok (l.any (fun x => match x with | .jstr s => s == key | _ => false))
  | .jstr s => .ok (listHasSub key.toList s.toList)
  | _ => .error (.exn "TypeError")

/-- Model of the Python subscript `v[key]` with a string key: dict lookup
(`KeyError` when missing); on any non-dict value it raises `TypeError`. -/
def pyIndex (v : JVal) (key : String) : Except PyExn JVal :=
  match v with
  | .jobj l =>
    match objLookup l key with
    | some x => .ok x
    | none => .error (.exn "KeyError")
  | _ => .error (.exn "TypeError")

/-- Numeric value of a digit list (no validation). -/
def digitsVal (cs : List Char) : Nat :=
  cs.foldl (fun n c => n * 10 + (c.toNat - 48)) 0

/-- Model of the builtin `float()` on strings, restricted to the plain
decimal literals occurring here: optional sign, integer digits, optional
fractional part.  The float is modelled by the exact rational value of
the literal.  `none` models the `ValueError` raised otherwise. -/
def parseFloatStr (s : String) : Option ℚ :=
  let cs := s.toList
  let sgncs : Bool × List Char :=
    match cs with
    | '-' :: r => (true, r)
    | '+' :: r => (false, r)
    | _ => (false, cs)
  let ip := sgncs.2.takeWhile (fun c => c.isDigit)
  let rest := sgncs.2.drop ip.length
  let mk : Nat → Nat → Option ℚ := fun n den =>
    some (mkRat (if sgncs.1 then -(Int.ofNat n) else Int.ofNat n) den)
  match rest with
  | [] => if ip.isEmpty then none else mk (digitsVal ip) 1
  | '.' :: fr =>
    if fr.all (fun c => c.isDigit) && decide (0 < ip.length + fr.length) then
      mk (digitsVal (ip ++ fr)) (10 ^ fr.length)
    else none
  | _ => none

/-- Model of the builtin `float()` on a decoded JSON value: numbers and
booleans convert, numeric strings parse, everything else raises. -/
def pyFloat (v : JVal) : Except PyExn ℚ :=
  match v with
  | .jnum q => .ok q
  | .jbool b => .ok (if b then 1 else 0)
  | .jstr s =>
    match parseFloatStr s with
    | some q => .ok q
    | none => .error (.exn "ValueError")
  | _ => .error (.exn "TypeError")

/-- Outcome of one `requests.get` of a JSON endpoint: either the call
raised (timeout, connection failure — `requests` exceptions), or a
response arrived with a status code and a body; `none` for the body
models a payload on which `r.json()` raises. -/
inductive HttpResult where
  | raised
  | resp (status : Nat) (body : Option JVal)

/-- Outcome of fetching and souping the coin page in strategy 2: either
the call raised, or a response arrived with a status code and, when an
`h2` heading containing "price prediction" with a following sibling
exists, the flattened text `block.get_text(" | ", strip=True)` of that
sibling.  BeautifulSoup itself is external; the model starts from the
text it extracts. -/
inductive PageResult where
  | raised
  | resp (status : Nat) (block : Option String)

/-- A prediction record as returned by `fetch_predictions_from_coincodex`:
`{"target_date": …, "predicted_price": …, "source": …}`. -/
structure PredRec where
  target_date : String
  predicted_price : ℚ
  source : String
deriving DecidableEq, Repr

/-- Processing of one entry `p` of the `price_prediction` list
(`main.py` lines 84–98).  `ok none` means the entry was skipped by the
`if dt and price` guard; `error` means an exception escaped the entry
(the inner `except` only covers the first parse attempt, so a failing
retry, a non-string date, or an unconvertible price raises out). -/
def entryProcess (p : JVal) : Except PyExn (Option PredRec) :=
  match p with
  | .jobj f =>
    let dt := match objLookup f "date" with
      | some v => if truthy v then some v else
          (match objLookup f "target_date" with
           | some w => if truthy w then some w else none
           | none => none)
      | none => match objLookup f "target_date" with
        | some w => if truthy w then some w else none
        | none => none
    let price := match objLookup f "price" with
      | some v => if truthy v then some v else
          (match objLookup f "predicted_price" with
           | some w => if truthy w then some w else none
           | none => none)
      | none => match objLookup f "predicted_price" with
        | some w => if truthy w then some w else none
        | none => none
    match dt, price with
    | some dv, some prv =>
      match dv with
      | .jstr s =>
        match parse_date_with_retry pyDateutilParse s with
        | some d =>
          match pyFloat prv with
          | .ok q => .ok (some ⟨d.isoformat, q, "CoinCodex"⟩)
          | .error e => .error e
        | none => .error (.exn "ParserError")
      | _ => .error (.exn "TypeError")
    | _, _ => .ok none
  | _ => .error (.exn "AttributeError")

/-- The `for p in preds` loop of strategy 1.  An exception from an entry
aborts the loop (it is caught by the strategy-level `except`), keeping
the records appended so far. -/
def strat1Loop : List JVal → List PredRec → List PredRec × Option PyExn
  | [], acc => (acc, none)
  | p :: rest, acc =>
    match entryProcess p with
    | .error e => (acc, some e)
    | .ok none => strat1Loop rest acc
    | .ok (some r) => strat1Loop rest (acc ++ [r])

/-- Strategy 1 (`main.py` lines 76–102): the API attempt.  Returns the
records accumulated and the exception, if any, that reached the
strategy-level `except` (where it is logged and swallowed).  Iterating a
truthy non-list `price_prediction` value either raises immediately
(non-iterable) or yields non-dict items whose `.get` raises at the first
entry, so no records are produced there. -/
def strat1Body (api : HttpResult) : List PredRec × Option PyExn :=
  match api with
  | .raised => ([], some (.exn "requests"))
  | .resp status body =>
    if status == 200 then
      match body with
      | none => ([], some (.exn "json"))
      | some j =>
        match j with
        | .jobj fields =>
          match objLookup fields "price_prediction" with
          | some pv =>
            if truthy pv then
              match pv with
              | .jarr entries => strat1Loop entries []
              | _ => ([], some (.exn "TypeError"))
            else strat1Loop [] []
          | none => ([], none)
        | _ => ([], none)
    else ([], none)

/-- Match a one-or-two-digit group followed by a separator class listing
the hyphen and the slash, at the head of the input, greedily preferring two
digits.  Backtracking from two digits to one cannot be forced by later
failure, since the single-digit alternative needs the second digit to be
a separator.  Returns the consumed characters and the remainder. -/
def matchDDSep (cs : List Char) : Option (List Char × List Char) :=
  match cs with
  | a :: b :: c :: rest =>
    if a.isDigit && b.isDigit && isSepCh c then some ([a, b, c], rest)
    else if a.isDigit && isSepCh b then some ([a, b], c :: rest)
    else none
  | [a, b] => if a.isDigit && isSepCh b then some ([a, b], []) else none
  | _ => none

/-- Match the trailing `\d{2,4}` greedily: up to four leading digits, at
least two.  The pattern ends here, so the greedy take is final. -/
def matchYear (cs : List Char) : Option (List Char × List Char) :=
  let ds := (cs.takeWhile (fun c => c.isDigit)).take 4
  if 2 ≤ ds.length then some (ds, cs.drop ds.length) else none

/-- Match the date pattern of `main.py` line 122 — digits `{1,2}`,
separator, digits `{1,2}`, separator, digits `{2,4}` — anchored at the
head of the input. -/
def matchDateAt (cs : List Char) : Option (String × List Char) :=
  match matchDDSep cs with
  | none => none
  | some (p1, r1) =>
    match matchDDSep r1 with
    | none => none
    | some (p2, r2) =>
      match matchYear r2 with
      | none => none
      | some (p3, r3) => some (String.mk (p1 ++ p2 ++ p3), r3)

/-- The greedy `(?:[,][0-9]{3})*` loop: repeatedly consume a comma
followed by exactly three digits.  Fueled; each step consumes four
characters. -/
def matchThousands : Nat → List Char → List Char × List Char
  | 0, cs => ([], cs)
  | fuel + 1, cs =>
    match cs with
    | ',' :: a :: b :: c :: rest =>
      if a.isDigit && b.isDigit && c.isDigit then
        let mr := matchThousands fuel rest
        (',' :: a :: b :: c :: mr.1, mr.2)
      else ([], cs)
    | _ => ([], cs)

/-- The optional `(?:\.\d+)?`: a point followed by at least one digit,
taking all following digits greedily. -/
def matchDecimal (cs : List Char) : List Char × List Char :=
  match cs with
  | '.' :: d :: rest =>
    if d.isDigit then
      let ds := rest.takeWhile (fun c => c.isDigit)
      ('.' :: d :: ds, rest.drop ds.length)
    else ([], cs)
  | _ => ([], cs)

/-- Match the capture group `[0-9]{1,3}(?:[,][0-9]{3})*(?:\.\d+)?` of the
price pattern (`main.py` line 123) anchored at the head of the input.
The one-to-three leading digits are taken greedily; since both tail
pieces can match empty, the greedy choice is never backtracked. -/
def matchNumGroup (cs : List Char) : Option (String × List Char) :=
  let ds := (cs.takeWhile (fun c => c.isDigit)).take 3
  if ds.isEmpty then none
  else
    let r0 := cs.drop ds.length
    let th := matchThousands (r0.length + 1) r0
    let dec := matchDecimal th.2
    some (String.mk (ds ++ th.1 ++ dec.1), dec.2)

/-- Match the price pattern `\$?\s?([0-9]…)` anchored at the head of the
input, with the greedy optional dollar sign and single whitespace and
their backtracking.  `re.findall` returns the capture group, and the
group extends to the end of the whole match, so the remainder after the
group is the scan resumption point. -/
def matchPriceAt (cs : List Char) : Option (String × List Char) :=
  let afterWsOpt : List Char → Option (String × List Char) := fun l =>
    match l with
    | w :: r2 =>
      if w.isWhitespace then
        match matchNumGroup r2 with
        | some res => some res
        | none => matchNumGroup l
      else matchNumGroup l
    | [] => matchNumGroup l
  match cs with
  | '$' :: r =>
    (match afterWsOpt r with
     | some res => some res
     | none => afterWsOpt cs)
  | _ => afterWsOpt cs

/-- The `re.findall` scan loop: try the matcher at every position from
the left; on a match, emit the captured token and resume after it.
Fueled by the input length (every step consumes at least one
character). -/
def scanAux (m : List Char → Option (String × List Char)) : Nat → List Char → List String
  | 0, _ => []
  | fuel + 1, cs =>
    match cs with
    | [] => []
    | _ :: rest =>
      match m cs with
      | some (tok, r) => tok :: scanAux m fuel r
      | none => scanAux m fuel rest

/-- The `re.findall` of the date pattern of `main.py` line 122. -/
def scanDates (s : String) : List String :=
  scanAux matchDateAt (s.length + 1) s.toList

/-- `re.findall` with the price pattern of `main.py` line 123. -/
def scanPrices (s : String) : List String :=
  scanAux matchPriceAt (s.length + 1) s.toList

/-- The pairing loop of strategy 2 (`main.py` lines 126–137): pair the
i-th date token with the i-th price token up to the shorter list (the
`List.zip` truncation models `range(min(len, len))`), strip commas from
the price, and skip any pair whose date or number fails to parse (the
per-pair `except: continue`). -/
def pairLoop : List (String × String) → List PredRec → List PredRec
  | [], acc => acc
  | (dt, pr) :: rest, acc =>
    let pr2 := String.mk (pr.toList.filter (fun c => !(c == ',')))
    match pyDateutilParse false dt with
    | none => pairLoop rest acc
    | some d =>
      match parseFloatStr pr2 with
      | none => pairLoop rest acc
      | some q => pairLoop rest (acc ++ [⟨d.isoformat, q, "CoinCodex-scrape"⟩])

/-- Strategy 2 (`main.py` lines 104–141): the fallback scrape.  Returns
the records found and the exception, if any, reaching the strategy-level
`except`. -/
def strat2Body (page : PageResult) : List PredRec × Option PyExn :=
  match page with
  | .raised => ([], some (.exn "requests"))
  | .resp status block =>
    if status == 200 then
      match block with
      | none => ([], none)
      | some text =>
        let dates := scanDates text
        let prices := scanPrices text
        if !dates.isEmpty && !prices.isEmpty then (pairLoop (dates.zip prices) [], none)
        else ([], none)
    else ([], none)

/-- `fetch_predictions_from_coincodex` (`main.py` lines 63–143).  Both
strategies run inside `try`/`except Exception` blocks whose handlers log
and swallow the exception, keeping the records appended before it; the
fallback is attempted only when strategy 1 produced no records.  The
second component of the result is the exception escaping the function:
always `none`. -/
def fetch_predictions_from_coincodex (api : HttpResult) (page : PageResult) :
    List PredRec × Option PyExn :=
  let r1 := (strat1Body api).1
  let res := if r1.isEmpty then r1 ++ (strat2Body page).1 else r1
  (res, none)

/-- `get_actual_price_from_coingecko` (`main.py` lines 147–164).  The
function has no `try`/`except`: `datetime.fromisoformat` on a malformed
`target_date`, a raising `requests.get`, a non-JSON 200 body, a 200 body
that is not an object, and the membership, subscript and `float` steps
on ill-shaped `market_data` values all raise to the caller.  A non-200
status and a well-shaped body lacking the nested price merely log a
warning and return `None`. -/
def get_actual_price_from_coingecko (target_date : String) (h : HttpResult) :
    Except PyExn (Option ℚ) :=
  match parseIsoDate target_date with
  | none => .error (.exn "ValueError")
  | some _ =>
    match h with
    | .raised => .error (.exn "requests")
    | .resp status body =>
      if status == 200 then
        match body with
        | none => .error (.exn "json")
        | some j =>
          match j with
          | .jobj f =>
            match objLookup f "market_data" with
            | none => .ok none
            | some md =>
              if truthy md then
                match pyContains "current_price" md with
                | .error e => .error e
                | .ok false => .ok none
                | .ok true =>
                  match pyIndex md "current_price" with
                  | .error e => .error e
                  | .ok cp =>
                    match pyContains "usd" cp with
                    | .error e => .error e
                    | .ok false => .ok none
                    | .ok true =>
                      match pyIndex cp "usd" with
                      | .error e => .error e
                      | .ok v =>
                        match pyFloat v with
                        | .ok q => .ok (some q)
                        | .error e => .error e
              else .ok none
          | _ => .error (.exn "AttributeError")
      else .ok none

/-- A row of the `predictions` table relevant to evaluation, as selected
by `find_due_predictions`. -/
structure PredRow where
  id : Nat
  symbol : String
  source : String
  target_date : SDate
  predicted_price : ℚ
deriving DecidableEq, Repr

/-- A row of the `results` table. -/
structure ResultRow where
  id : Nat
  prediction_id : Nat
  actual_price : Option ℚ
  abs_error : Option ℚ
  pct_error : Option ℚ
deriving DecidableEq, Repr

/-- `find_due_predictions` (`main.py` lines 178–191).  The SQL left join
of `predictions` with `results` keeps, under `WHERE r.id IS NULL`,
exactly the predictions no result row references (a left anti-join: the
`results.id` primary key is never NULL on a matched row), additionally
filtered by `DATE(p.target_date) <= DATE(?)`.  A `None` cut-off defaults
to `date.today()`, passed here as the `today` parameter. -/
def find_due_predictions (today : SDate) (preds : List PredRow)
    (results : List ResultRow) (as_of_date : Option SDate) : List PredRow :=
  let d := match as_of_date with
    | none => today
    | some x => x
  preds.filter (fun p =>
    !(results.any (fun r => r.prediction_id == p.id)) && dateLe p.target_date d)

/-- The next `INTEGER PRIMARY KEY` the insert would assign
(`lastrowid`). -/
def freshId (rs : List ResultRow) : Nat :=
  rs.foldr (fun r m => max r.id m) 0 + 1

/-- `insert_result` (`main.py` lines 194–201): append one result row. -/
def insert_result (rs : List ResultRow) (prediction_id : Nat)
    (actual_price abs_error pct_error : Option ℚ) : List ResultRow :=
  rs ++ [{ id := freshId rs, prediction_id := prediction_id,
           actual_price := actual_price, abs_error := abs_error,
           pct_error := pct_error }]

/-- The error computation of `main.py` line 246:
`abs_error = abs(predicted_price - actual)`. -/
def abs_error_of (predicted actual : ℚ) : ℚ := |predicted - actual|

/-- The error computation of `main.py` line 247:
`pct_error = (abs_error / actual) * 100 if actual != 0 else None`. -/
def pct_error_of (abs_err actual : ℚ) : Option ℚ :=
  if actual ≠ 0 then some (abs_err / actual * 100) else none

/-- The evaluation loop of `main()` (`main.py` lines 235–252) over the
due rows.  `geckoOf` models the `TRACK` lookup of the CoinGecko id for a
symbol (`None` also covering a falsy mapping); `lk` models the price
lookup, whose `Except` layer records that `get_actual_price_from_coingecko`
can raise, which aborts the run — the rows inserted before the abort are
already committed. -/
def evalLoop (geckoOf : String → Option String)
    (lk : String → SDate → Except PyExn (Option ℚ)) :
    List PredRow → List ResultRow → List ResultRow × Option PyExn
  | [], rs => (rs, none)
  | row :: rest, rs =>
    match geckoOf row.symbol with
    | none => evalLoop geckoOf lk rest rs
    | some gid =>
      match lk gid row.target_date with
      | .error e => (rs, some e)
      | .ok none => evalLoop geckoOf lk rest rs
      | .ok (some actual) =>
        evalLoop geckoOf lk rest
          (insert_result rs row.id (some actual)
            (some (abs_error_of row.predicted_price actual))
            (pct_error_of (abs_error_of row.predicted_price actual) actual))

/-- The evaluation phase of one run of `main()`: query the due
predictions as of today and evaluate each. -/
def evalRun (today : SDate) (preds : List PredRow) (results : List ResultRow)
    (geckoOf : String → Option String)
    (lk : String → SDate → Except PyExn (Option ℚ)) :
    List ResultRow × Option PyExn :=
  evalLoop geckoOf lk (find_due_predictions today preds results (some today)) results

/-- Number of result rows referencing a prediction. -/
def countFor (pid : Nat) (rs : List ResultRow) : Nat :=
  (rs.filter (fun r => r.prediction_id == pid)).length

/-- C3: for every evaluated prediction with predicted price `P` and
successfully fetched actual price `A`, the recorded `abs_error` is
`|P - A|`, and the recorded `pct_error` is absent exactly when `A = 0`
and equals `abs_error / A * 100` otherwise. -/
theorem C3_recorded_errors (geckoOf : String → Option String)
    (lk : String → SDate → Except PyExn (Option ℚ)) (row : PredRow)
    (rest : List PredRow) (rs : List ResultRow) (gid : String) (actual : ℚ)
    (h1 : geckoOf row.symbol = some gid)
    (h2 : lk gid row.target_date = Except.ok (some actual)) :
    evalLoop geckoOf lk (row :: rest) rs =
      evalLoop geckoOf lk rest
        (insert_result rs row.id (some actual)
          (some |row.predicted_price - actual|)
          (pct_error_of |row.predicted_price - actual| actual)) ∧
    (pct_error_of |row.predicted_price - actual| actual = none ↔ actual = 0) ∧
    (actual ≠ 0 →
      pct_error_of |row.predicted_price - actual| actual
        = some (|row.predicted_price - actual| / actual * 100)) := by
  refine ⟨by simp [evalLoop, h1, h2, abs_error_of], ?_, ?_⟩
  · by_cases h : actual = 0 <;> simp [pct_error_of, h]
  · intro h
    simp [pct_error_of, h]

/-- Witness for C3: prediction 65000, actual 60000. -/
theorem C3_recorded_errors_witness :
    pct_error_of |(65000 : ℚ) - 60000| 60000
      = some (|(65000 : ℚ) - 60000| / 60000 * 100) :=
  (C3_recorded_errors (fun s => if s == "BTC" then some "bitcoin" else none)
    (fun _ _ => Except.ok (some 60000))
    ⟨1, "BTC", "CoinCodex", ⟨2024, 6, 1⟩, 65000⟩ [] [] "bitcoin" 60000
    rfl rfl).2.2 (by norm_num)

/-- C5: for every behaviour of the external predictions source — network
failure, timeout, non-success status, malformed body, missing fields —
`fetch_predictions_from_coincodex` never raises past its boundary: the
exception component of its result is always `none`, every failure
degrading to a (possibly empty) record list. -/
theorem C5_extract_never_raises (api : HttpResult) (page : PageResult) :
    (fetch_predictions_from_coincodex api page).2 = none := rfl

/-- C8: the code's two-attempt date parse retries with
`dayfirst=False` — the month-first default, identical to the failed
first attempt — so it always coincides with a single month-first parse;
under a parser whose flag strictly selects the interpretation, a string
parseable only day-first still fails, although the day-first attempt the
spec and the code's own comment describe would succeed. -/
theorem C8_monthfirst_retry :
    (∀ (P : Bool → String → Option SDate) (s : String),
        parse_date_with_retry P s = P false s) ∧
    parse_date_with_retry strictFieldParse "25/06/2024" = none ∧
    strictFieldParse true "25/06/2024" = some ⟨2024, 6, 25⟩ := by
  refine ⟨fun P s => ?_, by decide, by decide⟩
  cases h : P false s <;> simp [parse_date_with_retry, h]

/-- The flattened block text of the fallback-scrape scenario. -/
def c1Text : String := "06/01/2024 | $65,000.00"

/-- C1 counterexample: on the scenario text the fallback strategy does
not return predicted price 65000.  The currency regex also matches bare
digit runs, so the first numeric token it finds is the "06" inside the
date, and positional pairing pairs the single date token with it. -/
theorem C1_counterexample :
    (fetch_predictions_from_coincodex (HttpResult.resp 404 none)
        (PageResult.resp 200 (some c1Text))).1
      = [⟨"2024-06-01", 6, "CoinCodex-scrape"⟩] ∧
    (6 : ℚ) ≠ 65000 := by
  exact ⟨rfl, by norm_num⟩

/-- C1 amended: with the structured strategy yielding zero records, the
fallback on the scenario text returns exactly one record with target
date "2024-06-01" but predicted price 6.0: the currency regex scan
yields the numeric tokens "06", "01", "202", "4", "65,000.00" (the date
digits match too), and the single date token is paired with the first of
them. -/
theorem C1_amended_scrape :
    (fetch_predictions_from_coincodex (HttpResult.resp 404 none)
        (PageResult.resp 200 (some c1Text))).1
      = [⟨"2024-06-01", 6, "CoinCodex-scrape"⟩] ∧
    scanDates c1Text = ["06/01/2024"] ∧
    scanPrices c1Text = ["06", "01", "202", "4", "65,000.00"] := by
  exact ⟨rfl, rfl, rfl⟩

/-- C4 counterexample: a timed-out or failed request raises a `requests`
exception that propagates (there is no `try`/`except` in
`get_actual_price_from_coingecko`), rather than returning absent. -/
theorem C4_counterexample :
    get_actual_price_from_coingecko "2024-06-01" HttpResult.raised
      = Except.error (PyExn.exn "requests") ∧
    (Except.error (PyExn.exn "requests") : Except PyExn (Option ℚ))
      ≠ Except.ok none := by
  exact ⟨rfl, fun h => Except.noConfusion h⟩

/-- C4 amended: on a non-success status, or on a 200 JSON-object body
lacking the nested `market_data.current_price.usd` field, the lookup
returns absent and logs a diagnostic; but a timed-out or failed request
raises an exception that propagates to the caller. -/
theorem C4_amended_lookup :
    (∀ (s : String) (d : SDate) (st : Nat) (body : Option JVal),
        parseIsoDate s = some d → st ≠ 200 →
        get_actual_price_from_coingecko s (HttpResult.resp st body)
          = Except.ok none) ∧
    (∀ (s : String) (d : SDate) (f : List (String × JVal)),
        parseIsoDate s = some d → objLookup f "market_data" = none →
        get_actual_price_from_coingecko s (HttpResult.resp 200 (some (JVal.jobj f)))
          = Except.ok none) ∧
    (∀ (s : String) (d : SDate) (f g : List (String × JVal)),
        parseIsoDate s = some d →
        objLookup f "market_data" = some (JVal.jobj g) →
        objLookup g "current_price" = none →
        get_actual_price_from_coingecko s (HttpResult.resp 200 (some (JVal.jobj f)))
          = Except.ok none) ∧
    (∀ (s : String) (d : SDate) (f g h : List (String × JVal)),
        parseIsoDate s = some d →
        objLookup f "market_data" = some (JVal.jobj g) →
        objLookup g "current_price" = some (JVal.jobj h) →
        objLookup h "usd" = none →
        get_actual_price_from_coingecko s (HttpResult.resp 200 (some (JVal.jobj f)))
          = Except.ok none) ∧
    (∀ (s : String) (d : SDate), parseIsoDate s = some d →
        get_actual_price_from_coingecko s HttpResult.raised
          = Except.error (PyExn.exn "requests")) := by
  refine ⟨?_, ?_, ?_, ?_, ?_⟩
  · intro s d st body hp hst
    have hb : (st == 200) = false := beq_eq_false_iff_ne.mpr hst
    simp [get_actual_price_from_coingecko, hp, hb]
  · intro s d f hp hmd
    simp [get_actual_price_from_coingecko, hp, hmd]
  · intro s d f g hp hmd hcp
    cases g with
    | nil => simp [get_actual_price_from_coingecko, hp, hmd, truthy]
    | cons a t =>
      simp [get_actual_price_from_coingecko, hp, hmd, truthy, pyContains, hcp]
  · intro s d f g h hp hmd hcp husd
    cases g with
    | nil => simp [objLookup] at hcp
    | cons a t =>
      simp [get_actual_price_from_coingecko, hp, hmd, truthy, pyContains,
        pyIndex, hcp, husd]
  · intro s d hp
    simp [get_actual_price_from_coingecko, hp]

/-- Witness for C4 amended: a 404 response yields absent. -/
theorem C4_amended_lookup_witness :
    get_actual_price_from_coingecko "2024-06-01" (HttpResult.resp 404 none)
      = Except.ok none :=
  C4_amended_lookup.1 "2024-06-01" ⟨2024, 6, 1⟩ 404 none (by decide) (by decide)

/-- The well-formed structured response of the scenario. -/
def c6Body : JVal := JVal.jobj [("price_prediction",
  JVal.jarr [JVal.jobj [("date", JVal.jstr "2024-06-01"),
                        ("price", JVal.jstr "65000")]])]

/-- C6 counterexample: the structured strategy tags its records with
source label "CoinCodex", not "primary-api". -/
theorem C6_counterexample :
    (fetch_predictions_from_coincodex (HttpResult.resp 200 (some c6Body))
        PageResult.raised).1
      = [⟨"2024-06-01", 65000, "CoinCodex"⟩] ∧
    ("CoinCodex" : String) ≠ "primary-api" := by
  exact ⟨rfl, by decide⟩

/-- Records produced by the pairing loop keep the accumulated sources
and tag every new record "CoinCodex-scrape". -/
theorem pairLoop_source (ps : List (String × String)) :
    ∀ acc : List PredRec,
      (acc.all (fun r => r.source == "CoinCodex-scrape")) = true →
      ((pairLoop ps acc).all (fun r => r.source == "CoinCodex-scrape")) = true := by
  induction ps with
  | nil => intro acc h; exact h
  | cons p rest ih =>
    intro acc h
    obtain ⟨dt, pr⟩ := p
    simp only [pairLoop]
    cases pyDateutilParse false dt with
    | none => exact ih acc h
    | some dd =>
      cases parseFloatStr (String.mk (pr.toList.filter (fun c => !(c == ',')))) with
      | none => exact ih acc h
      | some q =>
        refine ih _ ?_
        simp [List.all_append, h]

/-- Every record produced by the fallback strategy carries the source
label "CoinCodex-scrape". -/
theorem strat2_source (page : PageResult) :
    ((strat2Body page).1.all (fun r => r.source == "CoinCodex-scrape")) = true := by
  cases page with
  | raised => rfl
  | resp status block =>
    simp only [strat2Body]
    by_cases hst : (status == 200) = true
    · simp only [hst, if_true]
      cases block with
      | none => rfl
      | some text =>
        by_cases hd : (!(scanDates text).isEmpty && !(scanPrices text).isEmpty) = true
        · simp only [hd, if_true]
          exact pairLoop_source _ [] rfl
        · simp only [hd, if_false]
          rfl
    · simp only [hst, if_false]
      rfl

/-- C6 amended: on the scenario response the extractor yields exactly
one record with target date "2024-06-01" and predicted price 65000.0,
tagged "CoinCodex"; records produced by the fallback strategy are tagged
"CoinCodex-scrape". -/
theorem C6_amended_labels :
    (fetch_predictions_from_coincodex (HttpResult.resp 200 (some c6Body))
        PageResult.raised).1
      = [⟨"2024-06-01", 65000, "CoinCodex"⟩] ∧
    (∀ page : PageResult,
      ((strat2Body page).1.all (fun r => r.source == "CoinCodex-scrape")) = true) := by
  exact ⟨rfl, strat2_source⟩

/-- Structured response with a first entry whose date never parses and a
well-formed second entry. -/
def c7Body : JVal := JVal.jobj [("price_prediction",
  JVal.jarr [JVal.jobj [("date", JVal.jstr "soon"), ("price", JVal.jstr "1000")],
             JVal.jobj [("date", JVal.jstr "2024-06-01"),
                        ("price", JVal.jstr "65000")]])]

/-- Structured response with a first entry missing its price and a
well-formed second entry. -/
def c7mBody : JVal := JVal.jobj [("price_prediction",
  JVal.jarr [JVal.jobj [("date", JVal.jstr "2024-06-01")],
             JVal.jobj [("date", JVal.jstr "2024-06-02"),
                        ("price", JVal.jstr "65000")]])]

/-- C7 counterexample: an entry with an unparseable date is not skipped
by itself — the retried parse raises out of the per-entry code into the
strategy-level handler, so the well-formed entry after it never appears
in the extraction result (here the result is empty, the fallback page
giving nothing). -/
theorem C7_counterexample :
    (fetch_predictions_from_coincodex (HttpResult.resp 200 (some c7Body))
        (PageResult.resp 404 none)).1 = [] ∧
    (⟨"2024-06-01", 65000, "CoinCodex"⟩ : PredRec) ∉
      (fetch_predictions_from_coincodex (HttpResult.resp 200 (some c7Body))
        (PageResult.resp 404 none)).1 := by
  refine ⟨rfl, ?_⟩
  intro h
  rw [show (fetch_predictions_from_coincodex (HttpResult.resp 200 (some c7Body))
        (PageResult.resp 404 none)).1 = [] from rfl] at h
  exact List.not_mem_nil _ h

/-- C7 amended: an entry with a missing (or falsy) date or price field
is skipped by itself and the loop continues, so later well-formed
entries still appear; but an entry whose date or price raises during
parsing aborts the remaining entries of the list, keeping only the
records appended before it. -/
theorem C7_amended_skip :
    (∀ (e : JVal) (rest : List JVal) (acc : List PredRec),
        entryProcess e = Except.ok none →
        strat1Loop (e :: rest) acc = strat1Loop rest acc) ∧
    (∀ (e : JVal) (rest : List JVal) (acc : List PredRec) (ex : PyExn),
        entryProcess e = Except.error ex →
        strat1Loop (e :: rest) acc = (acc, some ex)) ∧
    (fetch_predictions_from_coincodex (HttpResult.resp 200 (some c7mBody))
        (PageResult.resp 404 none)).1
      = [⟨"2024-06-02", 65000, "CoinCodex"⟩] := by
  refine ⟨?_, ?_, rfl⟩
  · intro e rest acc h
    simp [strat1Loop, h]
  · intro e rest acc ex h
    simp [strat1Loop, h]

/-- Witness for C7 amended: a missing-price entry is skipped and the
loop proceeds with the remaining entries. -/
theorem C7_amended_skip_witness :
    strat1Loop [JVal.jobj [("date", JVal.jstr "2024-06-01")]] []
      = strat1Loop [] [] :=
  C7_amended_skip.1 (JVal.jobj [("date", JVal.jstr "2024-06-01")]) [] [] rfl

/-- C2: a prediction is returned by `find_due_predictions` exactly when
its target date is at most the cut-off and no result row references it;
in particular a prediction with a later target date, or one with a
result, is never returned. -/
theorem C2_due_membership (today D : SDate) (preds : List PredRow)
    (results : List ResultRow) (p : PredRow) :
    p ∈ find_due_predictions today preds results (some D) ↔
      p ∈ preds ∧ dateLe p.target_date D = true ∧
        (results.any (fun r => r.prediction_id == p.id)) = false := by
  simp only [find_due_predictions, List.mem_filter, Bool.and_eq_true,
    Bool.not_eq_true']
  tauto

/-- Appending one result row raises the count for its own prediction by
one and leaves every other count unchanged. -/
theorem countFor_insert (rs : List ResultRow) (pid prediction_id : Nat)
    (ap ae pe : Option ℚ) :
    countFor pid (insert_result rs prediction_id ap ae pe)
      = countFor pid rs + if prediction_id == pid then 1 else 0 := by
  cases h : (prediction_id == pid) <;>
    simp [countFor, insert_result, List.filter_append, h]

/-- The evaluation loop leaves the count unchanged for any prediction
none of its rows reference. -/
theorem evalLoop_count_untouched (geckoOf : String → Option String)
    (lk : String → SDate → Except PyExn (Option ℚ)) (pid : Nat) :
    ∀ (xs : List PredRow) (rs : List ResultRow),
      (∀ row ∈ xs, (row.id == pid) = false) →
      countFor pid (evalLoop geckoOf lk xs rs).1 = countFor pid rs := by
  intro xs
  induction xs with
  | nil => intro rs _; rfl
  | cons row rest ih =>
    intro rs hall
    have hrow : (row.id == pid) = false := hall row (List.mem_cons_self row rest)
    have hrest : ∀ r ∈ rest, (r.id == pid) = false :=
      fun r hr => hall r (List.mem_cons_of_mem _ hr)
    cases hg : geckoOf row.symbol with
    | none =>
      simp only [evalLoop, hg]
      exact ih rs hrest
    | some gid =>
      cases hl : lk gid row.target_date with
      | error e => simp only [evalLoop, hg, hl]
      | ok oq =>
        cases oq with
        | none =>
          simp only [evalLoop, hg, hl]
          exact ih rs hrest
        | some actual =>
          simp only [evalLoop, hg, hl]
          rw [ih _ hrest, countFor_insert, hrow]
          simp

/-- The evaluation loop adds, for any prediction, at most one result per
loop row referencing it. -/
theorem evalLoop_count_le (geckoOf : String → Option String)
    (lk : String → SDate → Except PyExn (Option ℚ)) (pid : Nat) :
    ∀ (xs : List PredRow) (rs : List ResultRow),
      countFor pid (evalLoop geckoOf lk xs rs).1
        ≤ countFor pid rs + xs.countP (fun row => row.id == pid) := by
  intro xs
  induction xs with
  | nil => intro rs; simp [evalLoop]
  | cons row rest ih =>
    intro rs
    rw [List.countP_cons]
    cases hg : geckoOf row.symbol with
    | none =>
      simp only [evalLoop, hg]
      refine Nat.le_trans (ih rs) ?_
      cases hrow : (row.id == pid) <;> simp [hrow]
    | some gid =>
      cases hl : lk gid row.target_date with
      | error e =>
        simp only [evalLoop, hg, hl]
        cases hrow : (row.id == pid) <;> simp [hrow]
      | ok oq =>
        cases oq with
        | none =>
          simp only [evalLoop, hg, hl]
          refine Nat.le_trans (ih rs) ?_
          cases hrow : (row.id == pid) <;> simp [hrow]
        | some actual =>
          simp only [evalLoop, hg, hl]
          refine Nat.le_trans (ih _) ?_
          rw [countFor_insert]
          cases hrow : (row.id == pid)
          · simp [hrow]
          · simp [hrow]
            omega

/-- A row list with pairwise distinct ids mentions any id at most
once. -/
theorem countP_id_le_one (pid : Nat) :
    ∀ xs : List PredRow, (xs.map (fun p => p.id)).Nodup →
      xs.countP (fun row => row.id == pid) ≤ 1 := by
  intro xs
  induction xs with
  | nil => intro h; simp
  | cons row rest ih =>
    intro hnd
    rw [List.map_cons, List.nodup_cons] at hnd
    rw [List.countP_cons]
    cases hrow : (row.id == pid) with
    | false => simpa [hrow] using ih hnd.2
    | true =>
      have hpid : row.id = pid := by simpa using hrow
      have hz : rest.countP (fun r => r.id == pid) = 0 := by
        rw [List.countP_eq_zero]
        intro r hr hbeq
        have : r.id = pid := by simpa using hbeq
        exact hnd.1 (by simpa [hpid, this] using List.mem_map_of_mem (fun p => p.id) hr)
      simp [hrow, hz]

/-- A positive count yields a referencing result row. -/
theorem exists_of_countFor_pos (pid : Nat) (rs : List ResultRow)
    (h : 1 ≤ countFor pid rs) : ∃ r ∈ rs, r.prediction_id = pid := by
  unfold countFor at h
  have hne : rs.filter (fun r => r.prediction_id == pid) ≠ [] := by
    intro heq
    rw [heq] at h
    simp at h
  obtain ⟨r, hr⟩ := List.exists_mem_of_ne_nil _ hne
  have hm := List.mem_filter.mp hr
  exact ⟨r, hm.1, by simpa using hm.2⟩

/-- No due row references a prediction that already has a result. -/
theorem due_avoids_evaluated (today : SDate) (preds : List PredRow)
    (results : List ResultRow) (pid : Nat) (h1 : 1 ≤ countFor pid results) :
    ∀ row ∈ find_due_predictions today preds results (some today),
      (row.id == pid) = false := by
  intro row hrow
  have hmem : row ∈ preds ∧ (∀ x ∈ results, ¬x.prediction_id = row.id) ∧
      dateLe row.target_date today = true := by
    simpa [find_due_predictions, List.mem_filter] using hrow
  cases hbe : (row.id == pid) with
  | false => rfl
  | true =>
    exfalso
    have hid : row.id = pid := by simpa using hbe
    obtain ⟨r, hrmem, hrp⟩ := exists_of_countFor_pos pid results h1
    exact hmem.2.1 r hrmem (by rw [hrp, hid])

/-- C9: a single run preserves the zero-or-one-result invariant — each
due row triggers at most one insert (due rows are pairwise distinct
predictions with no prior result), and a prediction that already has a
result is untouched because it no longer appears in the due query. -/
theorem C9_invariant_preserved (today : SDate) (preds : List PredRow)
    (results : List ResultRow) (geckoOf : String → Option String)
    (lk : String → SDate → Except PyExn (Option ℚ))
    (hids : (preds.map (fun p => p.id)).Nodup)
    (hinv : ∀ pid, countFor pid results ≤ 1) :
    (∀ pid, countFor pid (evalRun today preds results geckoOf lk).1 ≤ 1) ∧
    (∀ pid, 1 ≤ countFor pid results →
      countFor pid (evalRun today preds results geckoOf lk).1
        = countFor pid results) := by
  have hdue_nodup :
      ((find_due_predictions today preds results (some today)).map
        (fun p => p.id)).Nodup := by
    unfold find_due_predictions
    exact hids.sublist (List.Sublist.map _ (List.filter_sublist _))
  constructor
  · intro pid
    by_cases hc : countFor pid results = 0
    · have hle := evalLoop_count_le geckoOf lk pid
        (find_due_predictions today preds results (some today)) results
      have hone := countP_id_le_one pid _ hdue_nodup
      unfold evalRun
      omega
    · have h1 : 1 ≤ countFor pid results := Nat.one_le_iff_ne_zero.mpr hc
      have hnone := due_avoids_evaluated today preds results pid h1
      have heq := evalLoop_count_untouched geckoOf lk pid _ results hnone
      unfold evalRun
      rw [heq]
      exact hinv pid
  · intro pid h1
    have hnone := due_avoids_evaluated today preds results pid h1
    have heq := evalLoop_count_untouched geckoOf lk pid _ results hnone
    unfold evalRun
    rw [heq]

/-- Witness for C9: one stored prediction, an empty results table, a
successful lookup — afterwards at most one result references it. -/
theorem C9_invariant_preserved_witness :
    countFor 1 (evalRun ⟨2024, 6, 2⟩
      [⟨1, "BTC", "CoinCodex", ⟨2024, 6, 1⟩, 65000⟩] []
      (fun s => if s == "BTC" then some "bitcoin" else none)
      (fun _ _ => Except.ok (some 60000))).1 ≤ 1 :=
  (C9_invariant_preserved ⟨2024, 6, 2⟩
    [⟨1, "BTC", "CoinCodex", ⟨2024, 6, 1⟩, 65000⟩] []
    (fun s => if s == "BTC" then some "bitcoin" else none)
    (fun _ _ => Except.ok (some 60000))
    (by simp) (fun _ => Nat.zero_le 1)).1 1

/-- C10: calling `find_due_predictions` with the cut-off omitted behaves
exactly like calling it with the current date: dueness defaults to
today. -/
theorem C10_default_cutoff (today : SDate) (preds : List PredRow)
    (results : List ResultRow) :
    find_due_predictions today preds results none
      = find_due_predictions today preds results (some today) := rfl
